import Mathlib

set_option maxHeartbeats 1000000

/-!
Shallow embedding of the selection / deferred-resolution / classification core of
the `mkyutani/summaryreport` repository, translated from
`src/skills/pagereport/scripts/step5_material_selector.py`,
`src/skills/pagereport/scripts/step6_document_pipeline.py` and
`src/skills/pagereport/scripts/step4_minutes_referencer.py`.

Python strings are modeled as `String` (lists of unicode scalar values), machine
integers as `Int` (Python ints are unbounded, so no wrap-around modeling is
needed), float ratios as `Rat` (the comparisons performed by the code are exact
at every value appearing in the development), JSON decoding results as
`Except String Json`, and Python dicts with fixed key sets as structures.
Python regular-expression operations are hand-translated into explicit
character-list scanners with the same matching semantics on the fragments the
code uses (leftmost, non-overlapping matches, greedy character classes).
-/

namespace PageReport

/-! ### Generic character / string helpers (Python `str` semantics) -/

/-- Python whitespace class `\s` for `str` patterns / `str.strip`
(ASCII whitespace, NEL, NBSP, and the ideographic space U+3000; the
code only ever meets ASCII space, tab, CR, LF and U+3000). -/
def isWSChar (c : Char) : Bool :=
  c = ' ' || c = '\t' || c = '\n' || c = '\r' || c.val = 11 || c.val = 12 ||
  c.val = 0x85 || c.val = 0xa0 || c.val = 0x3000

/-- `str.strip()` on a character list. -/
def pyStripChars (l : List Char) : List Char :=
  ((l.dropWhile isWSChar).reverse.dropWhile isWSChar).reverse

/-- `str.strip()`. -/
def pyStrip (s : String) : String :=
  String.mk (pyStripChars s.data)

/-- One pass of `re.sub(r"\s+", " ", ·)`: every maximal whitespace run
becomes a single ASCII space.  `prevWS` records whether the previous
character belonged to a run that already emitted its space. -/
def collapseWSAux : Bool → List Char → List Char
  | _, [] => []
  | prevWS, c :: rest =>
    if isWSChar c then
      if prevWS then collapseWSAux true rest
      else ' ' :: collapseWSAux true rest
    else c :: collapseWSAux false rest

/-- `_normalize_text` (step5 line 57): `re.sub(r"\s+", " ", s.strip())`. -/
def normalize_text (s : String) : String :=
  String.mk (collapseWSAux false (pyStripChars s.data))

/-- Does `l` start with `pat` (character-exact)? -/
def startsWithL : List Char → List Char → Bool
  | _, [] => true
  | [], _ :: _ => false
  | c :: cs, p :: ps => c = p && startsWithL cs ps

/-- Python `pat in hay` substring test. -/
def containsL : List Char → List Char → Bool
  | [], pat => pat.isEmpty
  | c :: rest, pat => startsWithL (c :: rest) pat || containsL rest pat

/-- Python `sub in s` on `String`s. -/
def containsS (s : String) (sub : String) : Bool :=
  containsL s.data sub.data

/-- Python `str.lower()`; the code only lowercases ASCII letters
(Japanese characters are unaffected by `lower`). -/
def lowerL (l : List Char) : List Char :=
  l.map Char.toLower

/-- `str.lower()` on `String`. -/
def pyLower (s : String) : String :=
  String.mk (lowerL s.data)

/-- Case-insensitive substring test (`sub.lower() in s.lower()`). -/
def containsCI (s : String) (sub : String) : Bool :=
  containsL (lowerL s.data) (lowerL sub.data)

/-! ### JSON values (results of `json.loads`) -/

/-- Parsed JSON documents.  `json.loads` itself is an external, total
parser; a stage that calls it receives either a decoded value
(`Except.ok`) or a `JSONDecodeError` message (`Except.error`). -/
inductive Json where
  | null : Json
  | bool (b : Bool) : Json
  | num (n : Int) : Json
  | str (s : String) : Json
  | arr (items : List Json) : Json
  | obj (fields : List (String × Json)) : Json

/-- `dict.get(key)` on a JSON object: first binding wins, `none` when the
key is absent or the value is not an object. -/
def Json.get : Json → String → Option Json
  | .obj fields, key => fields.lookup key
  | _, _ => none

/-! ### step6: deferred resolution (`_resolve_deferred`) -/

/-- The `summary_candidate` / `full_candidate` sub-dicts stored inside a
deferred decision group (step5 lines 465-474). -/
structure DeferredCandidate where
  url : String
  text : String
  priority_score : Int
deriving DecidableEq

/-- A deferred decision group as produced by `_build_deferred_decisions`
(step5 lines 460-476). -/
structure DeferredGroup where
  group_id : String
  status : String
  rule : String
  summary_candidate : DeferredCandidate
  full_candidate : DeferredCandidate
deriving DecidableEq

/-- A resolved group as produced by `_resolve_deferred` (step6 lines 253-265). -/
structure ResolvedGroup where
  group_id : String
  status : String
  rule : String
  chosen_role : String
  chosen_url : String
  chosen_text : String
  rejected_url : String
  rejected_text : String
  reason : String
deriving DecidableEq

/-- The page-count lookup of step6 lines 237-239: `analysis_by_url` maps a
url to a record whose `page_count` is `Optional[int]`; a missing key and a
stored `null`/`None` both leave `full_pages = None`. -/
def probePageCount (probe : List (String × Option Int)) (u : String) : Option Int :=
  match probe.lookup u with
  | some p => p
  | none => none

/-- `_resolve_deferred`, body of the loop (step6 lines 231-265). -/
def resolve_deferred_one (probe : List (String × Option Int)) (d : DeferredGroup) :
    ResolvedGroup :=
  let full_pages := probePageCount probe d.full_candidate.url
  let roleReason : String × String :=
    match full_pages with
    | some n =>
      if n ≤ 20 then ("full", "full_page_count=" ++ toString n ++ " <= 20")
      else ("summary", "full_page_count=" ++ toString n ++ " > 20")
    | none => ("summary", "default_to_summary")
  let chosen := if roleReason.1 = "full" then d.full_candidate else d.summary_candidate
  let other := if roleReason.1 = "full" then d.summary_candidate else d.full_candidate
  { group_id := d.group_id
    status := "resolved"
    rule := d.rule
    chosen_role := roleReason.1
    chosen_url := chosen.url
    chosen_text := chosen.text
    rejected_url := other.url
    rejected_text := other.text
    reason := roleReason.2 }

/-- `_resolve_deferred` (step6 lines 226-266). -/
def resolve_deferred (deferred : List DeferredGroup)
    (probe : List (String × Option Int)) : List ResolvedGroup :=
  deferred.map (resolve_deferred_one probe)

/-! ### step6: loading the step5 JSON (main, lines 315-321) -/

/-- step6 `main` input validation: an empty/missing step5 file and an
undecodable step5 file both abort the run (`raise SystemExit`), modeled as
`Except.error`; `raw` is the file content and `parsed` the result of
`json.loads raw`. -/
def step6_load_step5 (step5_path : String) (raw : String)
    (parsed : Except String Json) : Except String Json :=
  if raw = "" then .error ("step5 file not found or empty: " ++ step5_path)
  else
    match parsed with
    | .error e => .error ("invalid step5 json: " ++ e)
    | .ok j => .ok j

/-! ### step5: the scored-candidate record -/

/-- The `score_components` sub-dict (step5 lines 541-546). -/
structure ScoreComponents where
  base : Int
  filename_bonus : Int
  minutes_mention_bonus : Int
  category_penalty : Int
deriving DecidableEq

/-- A scored candidate dict as built by the step5 `main` loop (lines
534-550), together with the decision annotations added at lines 596-604
and the `decision_resolved` flag added by step6 `_build_final_selection`. -/
structure Cand where
  text : String
  url : String
  filename : String
  document_category : String
  material_id : String
  score_components : ScoreComponents
  priority_score : Int
  adjustments : List String
  decision_pending : Bool := false
  decision_group_id : String := ""
  decision_role : String := ""
  decision_resolved : Bool := false
deriving DecidableEq

/-! ### step6: final selection merge (`_build_final_selection`) -/

/-- `reject_urls` (step6 line 273): the set of non-empty rejected urls. -/
def rejectUrls (resolved : List ResolvedGroup) : List String :=
  (resolved.map (fun r => r.rejected_url)).filter (fun u => u ≠ "")

/-- `keep_urls` (step6 line 274): the set of non-empty chosen urls. -/
def keepUrls (resolved : List ResolvedGroup) : List String :=
  (resolved.map (fun r => r.chosen_url)).filter (fun u => u ≠ "")

/-- The loop of `_build_final_selection` (step6 lines 276-290): skip empty
and already-seen urls, drop rejected urls, flag chosen urls as resolved;
`seen` grows only when an item is emitted. -/
def build_final_selection_aux (reject keep : List String) (seen : List String) :
    List Cand → List Cand
  | [] => []
  | item :: rest =>
    if item.url = "" ∨ item.url ∈ seen then
      build_final_selection_aux reject keep seen rest
    else if item.url ∈ reject then
      build_final_selection_aux reject keep seen rest
    else
      (if item.url ∈ keep then
        { item with decision_pending := false, decision_resolved := true }
       else item) :: build_final_selection_aux reject keep (item.url :: seen) rest

/-- `_build_final_selection` (step6 lines 269-290). -/
def build_final_selection (selected_pdfs : List Cand) (resolved : List ResolvedGroup) :
    List Cand :=
  build_final_selection_aux (rejectUrls resolved) (keepUrls resolved) [] selected_pdfs

/-- The urls of the final selection, the list `final_selected` is checked
against in the spec. -/
def final_selected_urls (selected : List Cand) (resolved : List ResolvedGroup) :
    List String :=
  (build_final_selection selected resolved).map (fun c => c.url)

/-- Builds a plain scored candidate (no decision annotations), used for
concrete witness inputs. -/
def mkCand (text url filename category : String) (score : Int) : Cand :=
  { text := text
    url := url
    filename := filename
    document_category := category
    material_id := ""
    score_components :=
      { base := score, filename_bonus := 0, minutes_mention_bonus := 0, category_penalty := 0 }
    priority_score := score
    adjustments := [] }

/-! ### step5: classification and scoring -/

/-- A normalized link record (output shape of `_parse_links_json` /
`_parse_links_txt`, step5 lines 84-89 and 203-208). -/
structure LinkEntry where
  text : String
  url : String
  filename : String
  estimated_category : String
deriving DecidableEq

/-- `BASE_SCORES` (step5 lines 20-31). -/
def BASE_SCORES : List (String × Int) :=
  [("executive_summary", 5), ("material", 4), ("agenda", 3), ("minutes", 3),
   ("reference", 2), ("personal_material", 2), ("participants", 1), ("seating", 1),
   ("disclosure_method", 1), ("other", 2)]

/-- The closed category set: `BASE_SCORES.keys()`. -/
def categorySet : List String :=
  BASE_SCORES.map (fun p => p.1)

/-- `EXCLUDE_CATEGORIES` (step5 line 33). -/
def EXCLUDE_CATEGORIES : List String :=
  ["participants", "seating", "disclosure_method"]

/-- `BASE_SCORES.get(category, BASE_SCORES["other"])` (step5 line 527);
`BASE_SCORES["other"]` is 2. -/
def baseScore (category : String) : Int :=
  (BASE_SCORES.lookup category).getD 2

/-- `re.match(r"^資料\s*[：:]", t)` as a boolean test. -/
def matchesShiryoColon : List Char → Bool
  | '資' :: '料' :: rest =>
    match rest.dropWhile isWSChar with
    | c :: _ => c = '：' || c = ':'
    | [] => false
  | _ => false

/-- `re.match(r"^資料\s*\d+", t)` (the code also tests `^資料\d+`, which
this subsumes since `\s*` matches the empty string). -/
def matchesShiryoDigits : List Char → Bool
  | '資' :: '料' :: rest =>
    match rest.dropWhile isWSChar with
    | c :: _ => c.isDigit
    | [] => false
  | _ => false

/-- `re.search(r"[^\s]+(?:省|府|庁)説明資料", t)`: somewhere in the text,
a non-space character directly precedes 省/府/庁 followed by 説明資料. -/
def searchMinistrySetsumei : List Char → Bool
  | [] => false
  | [_] => false
  | a :: b :: rest =>
    (!isWSChar a &&
      ((b = '省' || b = '府' || b = '庁') && startsWithL rest "説明資料".data)) ||
    searchMinistrySetsumei (b :: rest)

/-- `_classify_document` (step5 lines 93-123): the source binds
`t = _normalize_text(title)` and `fl = filename.lower()`, written out
in-line below; it also computes `tl = t.lower()` but never uses it. -/
def classify_document (title : String) (filename : String) : String :=
  if containsS (normalize_text title) "議事次第" ||
      containsS (normalize_text title) "次第" then "agenda"
  else if containsS (normalize_text title) "議事録" ||
      containsS (normalize_text title) "議事要旨" ||
      containsS (normalize_text title) "会議録" ||
      containsS (normalize_text title) "議事概要" then "minutes"
  else if containsS (normalize_text title) "委員名簿" ||
      containsS (normalize_text title) "出席者名簿" then "participants"
  else if containsS (normalize_text title) "座席表" ||
      containsS (normalize_text title) "座席配置" then "seating"
  else if containsS (normalize_text title) "公開方法" ||
      containsS (normalize_text title) "傍聴" then "disclosure_method"
  else if containsS (normalize_text title) "とりまとめ" ||
      containsS (normalize_text title) "取りまとめ" ||
      containsS (normalize_text title) "概要" ||
      containsS (normalize_text title) "Executive Summary" ||
      containsS (normalize_text title) "エグゼクティブサマリー" then
    "executive_summary"
  else if containsS (normalize_text title) "参考資料" ||
      containsS (normalize_text title) "参考" ||
      containsS (pyLower filename) "sankou" then
    "reference"
  else if matchesShiryoColon (normalize_text title).data ||
      containsS (normalize_text title) "説明資料" ||
      containsS (normalize_text title) "事務局資料" ||
      searchMinistrySetsumei (normalize_text title).data then "material"
  else if matchesShiryoDigits (normalize_text title).data then "material"
  else if containsS (pyLower filename) "gijiroku" ||
      containsS (pyLower filename) "gijiyoshi" ||
      containsS (pyLower filename) "minutes" then
    "minutes"
  else "other"

/-- `\d+\.` after a candidate position: a non-empty digit run immediately
followed by a literal dot. -/
def digitsThenDot : List Char → Bool
  | [] => false
  | c :: rest => c.isDigit && digitsThenDotAfter rest
where
  digitsThenDotAfter : List Char → Bool
    | [] => false
    | c :: rest => if c.isDigit then digitsThenDotAfter rest else c = '.'

/-- One position of `re.search(r"shiryou[01]-\d+\.", fl)`. -/
def shiryouDashAt (l : List Char) : Bool :=
  (startsWithL l "shiryou0-".data || startsWithL l "shiryou1-".data) &&
  digitsThenDot (l.drop 9)

/-- Does `p` hold at some suffix of the list (i.e. `re.search`)? -/
def existsPos (p : List Char → Bool) : List Char → Bool
  | [] => p []
  | c :: rest => p (c :: rest) || existsPos p rest

/-- `_filename_bonus` (step5 lines 228-240): 1 when the lowercased
filename matches one of the canonical naming patterns, else 0. -/
def filename_bonus (filename : String) : Int :=
  let fl := lowerL filename.data
  if containsL fl "shiryou0.".data || containsL fl "shiryou1.".data then 1
  else if existsPos shiryouDashAt fl then 1
  else if containsL fl "honpen.".data then 1
  else if containsL fl "gaiyou.".data then 1
  else if containsL fl "torimatome.".data then 1
  else 0

/-- Match `資料\s*(\d+(?:-\d+)?)` at the head of the list, returning the
captured group. -/
def matchShiryoNum : List Char → Option (List Char)
  | '資' :: '料' :: rest =>
    let r1 := rest.dropWhile isWSChar
    let digits := r1.takeWhile Char.isDigit
    if digits.isEmpty then none
    else
      match r1.drop digits.length with
      | '-' :: r3 =>
        let digits2 := r3.takeWhile Char.isDigit
        if digits2.isEmpty then some digits
        else some (digits ++ '-' :: digits2)
      | _ => some digits
  | _ => none

/-- `re.search(r"資料\s*(\d+(?:-\d+)?)", t)`: leftmost match. -/
def searchShiryoNum : List Char → Option (List Char)
  | [] => none
  | c :: rest =>
    match matchShiryoNum (c :: rest) with
    | some g => some g
    | none => searchShiryoNum rest

/-- Match `(?:shiryou|material)[_-]?(\d+(?:[-_]\d+)?)` at the head of the
list, returning the captured group. -/
def matchFileMaterialId (l : List Char) : Option (List Char) :=
  let afterKw : Option (List Char) :=
    if startsWithL l "shiryou".data then some (l.drop 7)
    else if startsWithL l "material".data then some (l.drop 8)
    else none
  match afterKw with
  | none => none
  | some r0 =>
    let r1 := match r0 with
      | c :: rest2 => if c = '_' || c = '-' then rest2 else r0
      | [] => r0
    let digits := r1.takeWhile Char.isDigit
    if digits.isEmpty then none
    else
      match r1.drop digits.length with
      | c :: r3 =>
        if c = '-' || c = '_' then
          let digits2 := r3.takeWhile Char.isDigit
          if digits2.isEmpty then some digits
          else some (digits ++ c :: digits2)
        else some digits
      | [] => some digits

/-- Leftmost `re.search` for the filename material-id pattern. -/
def searchFileMaterialId : List Char → Option (List Char)
  | [] => none
  | c :: rest =>
    match matchFileMaterialId (c :: rest) with
    | some g => some g
    | none => searchFileMaterialId rest

/-- `_material_id_from_text` (step5 lines 243-252). -/
def material_id_from_text (text : String) (filename : String) : String :=
  let t := normalize_text text
  match searchShiryoNum t.data with
  | some g => "資料" ++ String.mk g
  | none =>
    let fl := lowerL filename.data
    match searchFileMaterialId fl with
    | some g => "資料" ++ String.mk (g.map (fun c => if c = '_' then '-' else c))
    | none => ""

/-- `_minutes_mention_bonus` (step5 lines 263-271); `mentions` is the
dict built from the minutes text. -/
def minutes_mention_bonus (material_id : String) (mentions : List (String × Int)) : Int :=
  if material_id = "" then 0
  else
    let c := (mentions.lookup material_id).getD 0
    if 5 ≤ c then 2
    else if 2 ≤ c then 1
    else 0

/-- `_category_penalty` (step5 lines 274-281). -/
def category_penalty (category : String) (has_executive_summary : Bool) : Int :=
  if category ∈ EXCLUDE_CATEGORIES then -10
  else if category = "reference" ∧ has_executive_summary then -1
  else if category = "personal_material" ∧ has_executive_summary then -2
  else 0

/-- step5 line 509: is some raw record already tagged executive_summary? -/
def has_exec_summary (items : List LinkEntry) : Bool :=
  items.any (fun x => x.estimated_category = "executive_summary")

/-- Category determination of the `main` loop (step5 lines 515-526): a
non-empty, non-`other` upstream `estimated_category` is taken verbatim;
otherwise the keyword classifier runs, and when it yields `other` and the
LLM oracle is enabled, an oracle answer inside the closed set replaces it
(`llm = none` models a raised/caught oracle error). -/
def choose_category (it : LinkEntry) (use_llm : Bool) (llm : Option String) : String :=
  if pyStrip it.estimated_category ≠ "" ∧ pyStrip it.estimated_category ≠ "other" then
    pyStrip it.estimated_category
  else if use_llm ∧ classify_document it.text it.filename = "other" then
    match llm with
    | some llm_cat =>
      if llm_cat ∈ categorySet then llm_cat
      else classify_document it.text it.filename
    | none => classify_document it.text it.filename
  else classify_document it.text it.filename

/-- The scoring step of the `main` loop (step5 lines 514-550): score
components, their sum, and the clamp to a minimum of 1. -/
def score_item (has_exec : Bool) (mentions : List (String × Int))
    (use_llm : Bool) (llm : Option String) (it : LinkEntry) : Cand :=
  let category := choose_category it use_llm llm
  let base := baseScore category
  let file_bonus := filename_bonus it.filename
  let material_id := material_id_from_text it.text it.filename
  let mention_bonus := minutes_mention_bonus material_id mentions
  let penalty := category_penalty category has_exec
  let score := base + file_bonus + mention_bonus + penalty
  { text := it.text
    url := it.url
    filename := it.filename
    document_category := category
    material_id := material_id
    score_components :=
      { base := base, filename_bonus := file_bonus,
        minutes_mention_bonus := mention_bonus, category_penalty := penalty }
    priority_score := max 1 score
    adjustments := [] }

/-! ### step5: set-wide score adjustment (`_apply_adjustment_rules`) -/

/-- step5 lines 293-295: cap agenda scores at 4 when substantial
materials exist. -/
def adjust_agenda (has_substantial : Bool) (x : Cand) : Cand :=
  if x.document_category = "agenda" ∧ has_substantial ∧ 5 ≤ x.priority_score then
    { x with priority_score := 4, adjustments := x.adjustments ++ ["agenda_cap_to_4"] }
  else x

/-- step5 lines 297-299: cap reference scores at 4 when normal
materials exist. -/
def adjust_reference (has_normal_materials : Bool) (x : Cand) : Cand :=
  if x.document_category = "reference" ∧ has_normal_materials ∧ 4 < x.priority_score then
    { x with priority_score := 4, adjustments := x.adjustments ++ ["reference_cap_to_4"] }
  else x

/-- step5 lines 301-311: cap personal material at 2 with official
materials present, otherwise raise it to at least 3. -/
def adjust_personal (has_official : Bool) (x : Cand) : Cand :=
  if x.document_category = "personal_material" then
    if has_official then
      if min x.priority_score 2 ≠ x.priority_score then
        { x with priority_score := min x.priority_score 2,
                 adjustments := x.adjustments ++ ["personal_cap_with_official"] }
      else { x with priority_score := min x.priority_score 2 }
    else
      if max x.priority_score 3 ≠ x.priority_score then
        { x with priority_score := max x.priority_score 3,
                 adjustments := x.adjustments ++ ["personal_raise_without_official"] }
      else { x with priority_score := max x.priority_score 3 }
  else x

/-- step5 lines 313-314: the final re-clamp to a minimum of 1. -/
def clamp_floor (x : Cand) : Cand :=
  if x.priority_score < 1 then { x with priority_score := 1 } else x

/-- `_apply_adjustment_rules` (step5 lines 284-314).  The set-wide
predicates are computed before the loop mutates any score, and
`has_official` aliases `has_normal_materials` (line 290). -/
def apply_adjustment_rules (scored : List Cand) : List Cand :=
  let has_substantial := scored.any (fun x =>
    (x.document_category = "executive_summary" || x.document_category = "material") &&
    decide (4 ≤ x.priority_score))
  let has_normal_materials := scored.any (fun x =>
    x.document_category = "executive_summary" || x.document_category = "material")
  scored.map (fun x =>
    clamp_floor (adjust_personal has_normal_materials
      (adjust_reference has_normal_materials (adjust_agenda has_substantial x))))

/-! ### step5: summary/full hints and the topic key (lines 34-48, 384-410) -/

/-- `SUMMARY_HINTS` (step5 lines 34-40). -/
def SUMMARY_HINTS : List String :=
  ["概要", "要約", "サマリー", "エグゼクティブサマリー", "executive summary"]

/-- `FULL_HINTS` (step5 lines 41-48). -/
def FULL_HINTS : List String :=
  ["本文", "本編", "報告書", "とりまとめ", "取りまとめ", "詳細"]

/-- `_is_summary_text` (step5 lines 384-386). -/
def is_summary_text (text : String) : Bool :=
  SUMMARY_HINTS.any (fun h =>
    containsL (lowerL (normalize_text text).data) (lowerL h.data))

/-- `_is_full_text` (step5 lines 389-391). -/
def is_full_text (text : String) : Bool :=
  FULL_HINTS.any (fun h =>
    containsL (lowerL (normalize_text text).data) (lowerL h.data))

/-- `^資料\s*\d+(?:-\d+)?\s*` stripped from the front when it matches
(step5 line 397). -/
def stripLeadingShiryo (l : List Char) : List Char :=
  match l with
  | '資' :: '料' :: rest =>
    if ((rest.dropWhile isWSChar).takeWhile Char.isDigit).isEmpty then l
    else
      (match (rest.dropWhile isWSChar).drop
          ((rest.dropWhile isWSChar).takeWhile Char.isDigit).length with
        | '-' :: rr =>
          if (rr.takeWhile Char.isDigit).isEmpty then
            '-' :: rr
          else rr.drop (rr.takeWhile Char.isDigit).length
        | other => other).dropWhile isWSChar
  | _ => l

/-- Content up to the first closing parenthesis (`）` or `)`), together
with the characters after it: the extent of the greedy `[^）)]*[）)]`. -/
def splitAtFirstClose : List Char → Option (List Char × List Char)
  | [] => none
  | c :: rest =>
    if c = '）' || c = ')' then some ([], rest)
    else
      match splitAtFirstClose rest with
      | some (content, after) => some (c :: content, after)
      | none => none

/-- `re.sub(r"[（(][^）)]*pdf[^）)]*[）)]", "", ·, IGNORECASE)` (with
`require_pdf = true`) and `re.sub(r"[（(][^）)]*[）)]", "", ·)` (with
`require_pdf = false`): leftmost, non-overlapping removal of
parenthesized segments.  The recursion is driven by a fuel counter equal
to the input length; every step consumes at least one character, so the
fuel never runs out before the input does and the scan is exact. -/
def removeParensFuel (require_pdf : Bool) : Nat → List Char → List Char
  | 0, l => l
  | _ + 1, [] => []
  | fuel + 1, c :: rest =>
    if c = '（' || c = '(' then
      match splitAtFirstClose rest with
      | some (content, after) =>
        if !require_pdf || containsL (lowerL content) "pdf".data then
          removeParensFuel require_pdf fuel after
        else c :: removeParensFuel require_pdf fuel rest
      | none => c :: removeParensFuel require_pdf fuel rest
    else c :: removeParensFuel require_pdf fuel rest

/-- Parenthesized-segment removal at full fuel. -/
def removeParens (require_pdf : Bool) (l : List Char) : List Char :=
  removeParensFuel require_pdf l.length l

/-- Case-insensitive prefix test. -/
def startsWithCI (l pat : List Char) : Bool :=
  startsWithL (lowerL l) (lowerL pat)

/-- `re.sub(re.escape(pat), "", ·, IGNORECASE)`: remove every leftmost,
non-overlapping, case-insensitive occurrence of `pat` in one pass.  As
with `removeParensFuel`, every step consumes at least one input
character, so fuel equal to the input length makes the scan exact. -/
def removeAllCIFuel (pat : List Char) : Nat → List Char → List Char
  | 0, l => l
  | _ + 1, [] => []
  | fuel + 1, c :: rest =>
    if pat.isEmpty then c :: removeAllCIFuel pat fuel rest
    else if startsWithCI (c :: rest) pat then
      removeAllCIFuel pat fuel (rest.drop (pat.length - 1))
    else c :: removeAllCIFuel pat fuel rest

/-- Case-insensitive removal at full fuel. -/
def removeAllCI (pat : List Char) (l : List Char) : List Char :=
  removeAllCIFuel pat l.length l

/-- step5 lines 402-403: strip every summary/full hint word. -/
def removeHints (l : List Char) : List Char :=
  (SUMMARY_HINTS ++ FULL_HINTS).foldl (fun acc h => removeAllCI h.data acc) l

/-- `re.sub(r"<suffix>$", "", ·)`: drop one occurrence of `suf` at the
end of the list. -/
def removeSuffix (suf : List Char) (l : List Char) : List Char :=
  if decide (suf.length ≤ l.length) &&
      startsWithL (l.drop (l.length - suf.length)) suf then
    l.take (l.length - suf.length)
  else l

/-- The connector class `[・／/,:：\-ー_　\s]` of step5 line 409. -/
def isConnectorChar (c : Char) : Bool :=
  c = '・' || c = '／' || c = '/' || c = ',' || c = ':' || c = '：' || c = '-' ||
  c = 'ー' || c = '_' || c = '　' || isWSChar c

/-- `_topic_key` (step5 lines 394-410). -/
def topic_key (text : String) : String :=
  String.mk
    ((removeSuffix "に係る".data
      (removeSuffix "に関する".data
        (removeSuffix "について".data
          (removeSuffix "の".data
            (removeHints
              (removeParens false
                (removeParens true
                  (stripLeadingShiryo (normalize_text text).data)))))))).filter
      (fun c => !isConnectorChar c))

/-! ### step5: deferred pair matching (`_build_deferred_decisions`, lines 413-478) -/

/-- `f"deferred-{gid:02d}"` padding. -/
def padTwo (n : Nat) : String :=
  if n < 10 then "0" ++ toString n else toString n

/-- The inner loop of `_build_deferred_decisions` (step5 lines 432-446):
among unclaimed full candidates with the same topic key, the best by
explicit-full-hint bonus then priority score, first-seen winning ties;
the accumulator carries `(best_full, best_score)` with `best_score`
starting at −1. -/
def pick_best_full (sk : String) (used : List String) (fulls : List Cand) :
    Option Cand × Int :=
  fulls.foldl (fun acc f =>
    if f.url ∈ used then acc
    else if topic_key f.text = "" ∨ topic_key f.text ≠ sk then acc
    else if acc.2 < (if is_full_text f.text then 100 else 0) + f.priority_score then
      (some f, (if is_full_text f.text then 100 else 0) + f.priority_score)
    else acc) (none, -1)

/-- The outer loop of `_build_deferred_decisions` (step5 lines 428-477),
threading the group counter, the claimed-full set and the forced-url
set. -/
def build_deferred_aux (fulls : List Cand) (summaries : List Cand)
    (gid : Nat) (used : List String) (forced : List String) :
    List DeferredGroup × List String :=
  match summaries with
  | [] => ([], forced)
  | s :: rest =>
    if topic_key s.text = "" then build_deferred_aux fulls rest gid used forced
    else
      match (pick_best_full (topic_key s.text) used fulls).1 with
      | none => build_deferred_aux fulls rest gid used forced
      | some best_full =>
        if s.url = "" ∨ best_full.url = "" then
          build_deferred_aux fulls rest gid used forced
        else
          ({ group_id := "deferred-" ++ padTwo gid
             status := "pending"
             rule := "prefer_full_if_pages_le_20_else_summary"
             summary_candidate :=
               { url := s.url, text := s.text, priority_score := s.priority_score }
             full_candidate :=
               { url := best_full.url, text := best_full.text,
                 priority_score := best_full.priority_score } } ::
            (build_deferred_aux fulls rest (gid + 1) (best_full.url :: used)
              (best_full.url :: s.url :: forced)).1,
           (build_deferred_aux fulls rest (gid + 1) (best_full.url :: used)
              (best_full.url :: s.url :: forced)).2)

/-- `_build_deferred_decisions` (step5 lines 413-478): candidates whose
text carries a summary hint become summary candidates, all others full
candidates, preserving order. -/
def build_deferred_decisions (scored_sorted : List Cand) :
    List DeferredGroup × List String :=
  build_deferred_aux
    (scored_sorted.filter (fun x => !is_summary_text x.text))
    (scored_sorted.filter (fun x => is_summary_text x.text)) 1 [] []

/-! ### step5: reading the upstream link lists (lines 61-90, 187-209, 499-503) -/

/-- Python truthiness of a decoded JSON value. -/
def jsonTruthy : Json → Bool
  | .null => false
  | .bool b => b
  | .num n => decide (n ≠ 0)
  | .str s => decide (s ≠ "")
  | .arr items => !items.isEmpty
  | .obj fields => !fields.isEmpty

/-- Python `str()` of a decoded JSON value.  Scalars are exact; the
container cases approximate the Python repr and are never reached by the
records the pipeline handles (their fields are scalars). -/
def pyStr : Json → String
  | .null => "None"
  | .bool b => if b then "True" else "False"
  | .num n => toString n
  | .str s => s
  | .arr _ => "[\x2e\x2e\x2e]"
  | .obj _ => "\x7b\x2e\x2e\x2e\x7d"

/-- `str(item.get(key) or dflt)` as used at step5 lines 76-81. -/
def jsonGetOr (item : Json) (key : String) (dflt : String) : String :=
  match item.get key with
  | some v => if jsonTruthy v then pyStr v else dflt
  | none => dflt

/-- Hexadecimal digit test for percent-decoding. -/
def isHexDigitChar (c : Char) : Bool :=
  c.isDigit || ('a' ≤ c && c ≤ 'f') || ('A' ≤ c && c ≤ 'F')

/-- Hexadecimal digit value. -/
def hexVal (c : Char) : Nat :=
  if c.isDigit then c.toNat - 48
  else if 'a' ≤ c ∧ c ≤ 'f' then c.toNat - 87
  else if 'A' ≤ c ∧ c ≤ 'F' then c.toNat - 55
  else 0

/-- `urllib.parse.unquote`: decode `%XX` escapes.  ASCII escapes decode
exactly as in Python; multi-byte UTF-8 escape sequences are decoded
byte-by-byte (no link handled by the claims carries such escapes). -/
def percentDecode : List Char → List Char
  | [] => []
  | '%' :: a :: b :: rest =>
    if isHexDigitChar a && isHexDigitChar b then
      Char.ofNat (hexVal a * 16 + hexVal b) :: percentDecode rest
    else '%' :: percentDecode (a :: b :: rest)
  | c :: rest => c :: percentDecode rest

/-- Characters after the first occurrence of `pat` (empty when absent). -/
def afterSubstr (pat : List Char) : List Char → List Char
  | [] => []
  | c :: rest =>
    if startsWithL (c :: rest) pat then (c :: rest).drop pat.length
    else afterSubstr pat rest

/-- `urlparse(url).path`: drop the fragment and query, and when a
`scheme://netloc` prefix is present, drop it up to the first slash. -/
def urlPath (url : String) : String :=
  let l := (url.data.takeWhile (fun c => c ≠ '#')).takeWhile (fun c => c ≠ '?')
  if containsL l "://".data then
    String.mk ((afterSubstr "://".data l).dropWhile (fun c => c ≠ '/'))
  else String.mk l

/-- Split a character list on `/` separators. -/
def splitOnSlash (cur : List Char) : List Char → List String
  | [] => [String.mk cur.reverse]
  | '/' :: rest => String.mk cur.reverse :: splitOnSlash [] rest
  | c :: rest => splitOnSlash (c :: cur) rest

/-- `pathlib.Path(p).name`: the last path component, with empty and `.`
segments dropped as pathlib does. -/
def pathName (p : String) : String :=
  ((splitOnSlash [] p.data).filter (fun seg => seg ≠ "" ∧ seg ≠ ".")).getLastD ""

/-- `Path(unquote(urlparse(url).path)).name` (step5 lines 83, 201). -/
def url_filename (url : String) : String :=
  pathName (String.mk (percentDecode (urlPath url).data))

/-- The per-item body of `_parse_links_json` (step5 lines 73-89):
non-dict items and items without a url are dropped; a missing/blank
category falls back to `other`; a missing filename is derived from the
url. -/
def parse_link_item (item : Json) : Option LinkEntry :=
  match item with
  | .obj fields =>
    if normalize_text (jsonGetOr (.obj fields) "url" "") = "" then none
    else
      some
        { text := normalize_text (jsonGetOr (.obj fields) "text" "")
          url := normalize_text (jsonGetOr (.obj fields) "url" "")
          filename :=
            if normalize_text (jsonGetOr (.obj fields) "filename" "") = "" then
              url_filename (normalize_text (jsonGetOr (.obj fields) "url" ""))
            else normalize_text (jsonGetOr (.obj fields) "filename" "")
          estimated_category :=
            if normalize_text (jsonGetOr (.obj fields) "estimated_category" "other") = ""
            then "other"
            else normalize_text (jsonGetOr (.obj fields) "estimated_category" "other") }
  | _ => none

/-- `_parse_links_json` (step5 lines 61-90): an empty file, a
`JSONDecodeError` and a non-list document all yield the empty list —
the decode error is swallowed, not raised. -/
def parse_links_json (raw : String) (parsed : Except String Json) : List LinkEntry :=
  if raw = "" then []
  else
    match parsed with
    | .error _ => []
    | .ok (.arr items) => items.filterMap parse_link_item
    | .ok _ => []

/-- `str.splitlines()` restricted to LF / CR / CRLF separators (a
trailing separator produces one extra empty line here; every caller
strips and skips blank lines, so the difference is unobservable). -/
def splitLinesAux (cur : List Char) : List Char → List String
  | [] => [String.mk cur.reverse]
  | '\r' :: '\n' :: rest => String.mk cur.reverse :: splitLinesAux [] rest
  | '\n' :: rest => String.mk cur.reverse :: splitLinesAux [] rest
  | '\r' :: rest => String.mk cur.reverse :: splitLinesAux [] rest
  | c :: rest => splitLinesAux (c :: cur) rest

/-- Split a file body into lines. -/
def splitLinesPy (s : String) : List String :=
  splitLinesAux [] s.data

/-- `raw.split("\t", 1)` when a tab is present. -/
def splitFirstTab : List Char → Option (List Char × List Char)
  | [] => none
  | '\t' :: rest => some ([], rest)
  | c :: rest =>
    match splitFirstTab rest with
    | some (a, b) => some (c :: a, b)
    | none => none

/-- `_parse_links_txt` (step5 lines 187-209). -/
def parse_links_txt (content : String) : List LinkEntry :=
  (splitLinesPy content).filterMap (fun line =>
    if pyStrip line = "" then none
    else
      match splitFirstTab (pyStrip line).data with
      | some (a, b) =>
        if normalize_text (String.mk b) = "" then none
        else
          some
            { text := normalize_text (String.mk a)
              url := normalize_text (String.mk b)
              filename := url_filename (normalize_text (String.mk b))
              estimated_category :=
                classify_document (normalize_text (String.mk a))
                  (url_filename (normalize_text (String.mk b))) }
      | none =>
        some
          { text := ""
            url := pyStrip line
            filename := url_filename (pyStrip line)
            estimated_category := classify_document "" (url_filename (pyStrip line)) })

/-- step5 `main` lines 499-503: read the JSON candidate list; when it
yields nothing (missing file, malformed JSON, non-list document, or no
usable record) silently fall back to the text list.  There is no abort
path: `main` continues with whatever this returns, the second component
recording the `source` field of the output payload. -/
def step5_acquire (links_json_raw : String) (links_json_parsed : Except String Json)
    (links_txt_content : String) : List LinkEntry × String :=
  if (parse_links_json links_json_raw links_json_parsed).isEmpty then
    (parse_links_txt links_txt_content, "pdf-links.txt")
  else (parse_links_json links_json_raw links_json_parsed, "pdf-links.json")

/-! ### step5: url deduplication (`_dedupe_by_url`, lines 212-225) and
step4 text preference (`_prefer_new_text`, lines 234-247) -/

/-- step5 lines 221-222: a duplicate contributes its text only when the
stored text is empty and the new text is not. -/
def merge_dup_text (old it : LinkEntry) : LinkEntry :=
  if old.text = "" ∧ it.text ≠ "" then { old with text := it.text } else old

/-- step5 lines 223-224: a duplicate contributes its category only when
the stored category is blank or `other` and the new one is non-empty. -/
def merge_dup_category (old it : LinkEntry) : LinkEntry :=
  if (old.estimated_category = "" ∨ old.estimated_category = "other") ∧
      it.estimated_category ≠ "" then
    { old with estimated_category := it.estimated_category }
  else old

/-- The whole duplicate-merging step of `_dedupe_by_url`. -/
def merge_dup (old it : LinkEntry) : LinkEntry :=
  merge_dup_category (merge_dup_text old it) it

/-- Insert into the insertion-ordered url-keyed map: merge into the
existing entry for the url, or append a copy of the record. -/
def upsertMerge : List LinkEntry → LinkEntry → List LinkEntry
  | [], it => [it]
  | e :: rest, it =>
    if e.url = it.url then merge_dup e it :: rest
    else e :: upsertMerge rest it

/-- `_dedupe_by_url` (step5 lines 212-225): `merged` is an
insertion-ordered dict keyed by url; records with an empty url are
skipped; `list(merged.values())` preserves first-seen order. -/
def dedupe_by_url (items : List LinkEntry) : List LinkEntry :=
  items.foldl (fun acc it => if it.url = "" then acc else upsertMerge acc it) []

/-- `MINUTES_PDF_KEYWORDS` (step4 lines 22-29). -/
def MINUTES_PDF_KEYWORDS : List String :=
  ["gijiroku", "gijiyoshi", "minutes", "議事録", "議事要旨", "議事概要"]

/-- `_contains_minutes_keyword` (step4 lines 229-231). -/
def contains_minutes_keyword (text : String) : Bool :=
  MINUTES_PDF_KEYWORDS.any (fun kw => containsL (lowerL text.data) (lowerL kw.data))

/-- `_prefer_new_text` (step4 lines 234-247): should the new duplicate
text replace the stored one? -/
def prefer_new_text (old_text new_text : String) : Bool :=
  if new_text = "" then false
  else if old_text = "" then true
  else if containsS old_text "�" && !containsS new_text "�" then true
  else if contains_minutes_keyword new_text && !contains_minutes_keyword old_text then true
  else false

/-! ### step5: selection policy (main, lines 554-587) -/

/-- Code-point lexicographic `<` on character lists: Python string
comparison. -/
def strLtL : List Char → List Char → Bool
  | [], [] => false
  | [], _ :: _ => true
  | _ :: _, [] => false
  | a :: xs, b :: ys =>
    if a.val < b.val then true
    else if b.val < a.val then false
    else strLtL xs ys

/-- Python tuple `<` on the sort key
`(priority_score, document_category, filename)` (step5 lines 556 and 572). -/
def sortKeyLt (x y : Cand) : Bool :=
  decide (x.priority_score < y.priority_score) ||
  (decide (x.priority_score = y.priority_score) &&
    (strLtL x.document_category.data y.document_category.data ||
     (decide (x.document_category = y.document_category) &&
      strLtL x.filename.data y.filename.data)))

/-- Insert `x` into a descending-sorted list, after every element whose
key is not strictly below the key of `x`. -/
def insertDesc (x : Cand) : List Cand → List Cand
  | [] => [x]
  | y :: ys => if sortKeyLt y x then x :: y :: ys else y :: insertDesc x ys

/-- `sorted(key=..., reverse=True)`: CPython's sort is stable, and a
stable descending sort has a unique result, so this insertion sort
computes exactly the list the Python code computes. -/
def sortDescBy (l : List Cand) : List Cand :=
  l.foldl (fun acc x => insertDesc x acc) []

/-- step5 lines 563-565: walk `sorted_scored` appending every candidate
whose url is forced and that is not yet selected (Python `x not in
selected` is dict-value equality, i.e. `Cand` equality). -/
def force_include (forced : List String) (sorted_scored : List Cand)
    (selected : List Cand) : List Cand :=
  sorted_scored.foldl
    (fun acc x => if x.url ∈ forced ∧ x ∉ acc then acc ++ [x] else acc) selected

/-- step5 lines 562-565: candidates scoring ≥ 4, then forced candidates
appended. -/
def selected_before_cap (sorted_scored : List Cand) (forced : List String) : List Cand :=
  force_include forced sorted_scored
    (sorted_scored.filter (fun x => 4 ≤ x.priority_score))

/-- step5 line 569: the forced part of the selection. -/
def forced_selected (sorted_scored : List Cand) (forced : List String) : List Cand :=
  (selected_before_cap sorted_scored forced).filter (fun x => x.url ∈ forced)

/-- step5 lines 568, 570-574: the non-forced part, re-sorted. -/
def score_selected_sorted (sorted_scored : List Cand) (forced : List String) : List Cand :=
  sortDescBy ((selected_before_cap sorted_scored forced).filter (fun x => x.url ∉ forced))

/-- step5 lines 575-576: `if len(score_selected) > 5: score_selected = score_selected[:5]`. -/
def score_selected_capped (sorted_scored : List Cand) (forced : List String) : List Cand :=
  if 5 < (score_selected_sorted sorted_scored forced).length then
    (score_selected_sorted sorted_scored forced).take 5
  else score_selected_sorted sorted_scored forced

/-- step5 lines 579-586: deduplicate by url preserving order, skipping
empty urls; `seen` grows only when an item is kept. -/
def dedupe_selected (seen : List String) : List Cand → List Cand
  | [] => []
  | x :: rest =>
    if x.url = "" ∨ x.url ∈ seen then dedupe_selected seen rest
    else x :: dedupe_selected (x.url :: seen) rest

/-- step5 lines 562-587: the final `selected` list (`selected_pdfs`). -/
def select_pdfs (sorted_scored : List Cand) (forced : List String) : List Cand :=
  dedupe_selected []
    (forced_selected sorted_scored forced ++ score_selected_capped sorted_scored forced)

/-! ### step6: feature-based layout classification (lines 54-143) -/

/-- The feature dict produced by `_extract_features` (step6 lines 79-95).
`short_line_share` models the `short_line_ratio` entry and
`sentence_density` its entry; both are Python floats, modeled as exact
rationals — every comparison the classifier performs is strict enough
that the float/rational gap (< 1e-15 at the thresholds 0.45, 0.6, 0.2)
never flips an answer on the values this development evaluates. -/
structure Features where
  line_count : Int
  sentence_like_count : Int
  sentence_density : Rat
  bullet_count : Int
  symbol_bullet_count : Int
  nominal_ending_count : Int
  topic_line_count : Int
  paragraph_count : Int
  particle_count : Int
  polite_style_count : Int
  dearu_style_count : Int
  citation_count : Int
  reference_expr_count : Int
  page_number_line_count : Int
  short_line_share : Rat
deriving DecidableEq

/-- The prose-likeness score (step6 lines 119-123). -/
def word_score (f : Features) : Int :=
  min f.sentence_like_count 8 +
  (if 3 ≤ f.paragraph_count then 2 else 0) +
  (if 20 ≤ f.particle_count then 2 else 0) +
  (if 3 ≤ f.polite_style_count + f.dearu_style_count then 1 else 0) +
  (if 2 ≤ f.citation_count then 1 else 0)

/-- The slide-likeness score (step6 lines 125-137), including the
dense-slide-layout bonus. -/
def ppt_score (f : Features) : Int :=
  min f.bullet_count 8 +
  min f.nominal_ending_count 4 +
  (if mkRat 45 100 ≤ f.short_line_share then 2 else 0) +
  (if 4 ≤ f.topic_line_count then 2 else 0) +
  (if 2 ≤ f.reference_expr_count then 1 else 0) +
  (if 2 ≤ f.page_number_line_count then 2 else 0) +
  (if mkRat 6 10 ≤ f.short_line_share ∧ f.sentence_density ≤ mkRat 2 10 ∧
      2 ≤ f.page_number_line_count then 4 else 0)

/-- Python `\w` (word character) restricted to the character classes the
pipeline meets: ASCII alphanumerics and underscore, and every non-ASCII
character except the common Japanese/fullwidth punctuation blocks. -/
def isWordChar (c : Char) : Bool :=
  if c.val < 0x80 then c.isAlphanum || c = '_'
  else !(0x3000 ≤ c.val && c.val ≤ 0x303f) &&
    !(0xff00 ≤ c.val && c.val ≤ 0xff20) &&
    !(0xff3b ≤ c.val && c.val ≤ 0xff40) &&
    !(0xff5b ≤ c.val && c.val ≤ 0xff65) &&
    !(0x2000 ≤ c.val && c.val ≤ 0x206f)

/-- `[:：]\d{2}\b`: a colon, two digits, then a word boundary. -/
def timeTail : List Char → Bool
  | c :: d1 :: d2 :: rest =>
    (c = ':' || c = '：') && d1.isDigit && d2.isDigit &&
    (match rest with
     | [] => true
     | r :: _ => !isWordChar r)
  | _ => false

/-- `\d{1,2}[:：]\d{2}\b` anchored at the current position (the
position's own left boundary is checked by the caller). -/
def timeMatchAt : List Char → Bool
  | d1 :: rest =>
    d1.isDigit &&
    ((match rest with
      | d2 :: rest2 => (d2.isDigit && timeTail rest2) || timeTail rest
      | [] => false))
  | [] => false

/-- Scan for `\b\d{1,2}[:：]\d{2}\b`; `prevIsWord` tracks whether the
previous character was a word character (no boundary there). -/
def hasTimePatternAux (prevIsWord : Bool) : List Char → Bool
  | [] => false
  | c :: rest =>
    (!prevIsWord && timeMatchAt (c :: rest)) || hasTimePatternAux (isWordChar c) rest

/-- `re.search(r"\b\d{1,2}[:：]\d{2}\b", joined)` (step6 line 106). -/
def hasTimePattern (s : String) : Bool :=
  hasTimePatternAux false s.data

/-- `_classify_document_type` (step6 lines 98-143): title-keyword rules
first, then the two-score margin decision; the source binds
`t = (title or "").strip()` and `joined = first5_text`, written in-line. -/
def classify_document_type (title : String) (first5 : String) (f : Features) :
    String × String :=
  if containsS (pyStrip title) "委員名簿" || containsS (pyStrip title) "出席者名簿" then
    ("participants_list", "名簿系キーワード")
  else if (containsS (pyStrip title) "議事次第" || containsS (pyStrip title) "次第") &&
      (hasTimePattern first5 || containsS first5 "配布資料") then
    ("agenda", "議事次第キーワード + 時刻/資料記載")
  else if containsS (pyStrip title) "プレスリリース" ||
      containsS (pyStrip title) "報道発表" then
    ("press_release", "報道系キーワード")
  else if containsS (pyStrip title) "調査結果" || containsS (pyStrip title) "アンケート" then
    ("survey_report", "調査系キーワード")
  else if word_score f ≥ ppt_score f + 2 then
    ("word_like",
     "word_score=" ++ toString (word_score f) ++ ", ppt_score=" ++ toString (ppt_score f))
  else if ppt_score f ≥ word_score f + 2 then
    ("powerpoint_like",
     "ppt_score=" ++ toString (ppt_score f) ++ ", word_score=" ++ toString (word_score f))
  else
    ("mixed",
     "close_scores word=" ++ toString (word_score f) ++ ", ppt=" ++ toString (ppt_score f))

/-- The powerpoint-like feature vector of the claim: bullet_count = 10,
short_line_ratio = 0.7, sentence_density = 0.1,
page_number_line_count = 3, all other features 0. -/
def c9ppt : Features :=
  { line_count := 0, sentence_like_count := 0, sentence_density := mkRat 1 10,
    bullet_count := 10, symbol_bullet_count := 0, nominal_ending_count := 0,
    topic_line_count := 0, paragraph_count := 0, particle_count := 0,
    polite_style_count := 0, dearu_style_count := 0, citation_count := 0,
    reference_expr_count := 0, page_number_line_count := 3,
    short_line_share := mkRat 7 10 }

/-- The word-like feature vector of the claim: sentence_like_count = 8,
paragraph_count = 5, particle_count = 30, polite_style_count = 4, all
other features 0. -/
def c9word : Features :=
  { line_count := 0, sentence_like_count := 8, sentence_density := mkRat 0 1,
    bullet_count := 0, symbol_bullet_count := 0, nominal_ending_count := 0,
    topic_line_count := 0, paragraph_count := 5, particle_count := 30,
    polite_style_count := 4, dearu_style_count := 0, citation_count := 0,
    reference_expr_count := 0, page_number_line_count := 0,
    short_line_share := mkRat 0 1 }

/-! ### Concrete inputs used by witnesses -/

/-- A concrete pending group (shape of step5 lines 460-476). -/
def c1group : DeferredGroup :=
  { group_id := "deferred-01"
    status := "pending"
    rule := "prefer_full_if_pages_le_20_else_summary"
    summary_candidate := { url := "https://x/s.pdf", text := "資料1 概要", priority_score := 5 }
    full_candidate := { url := "https://x/f.pdf", text := "資料1 本文", priority_score := 4 } }

/-- Concrete pre-resolution selection containing both members of `c1group`. -/
def c3selected : List Cand :=
  [mkCand "資料1 概要" "https://x/s.pdf" "s.pdf" "executive_summary" 5,
   mkCand "資料1 本文" "https://x/f.pdf" "f.pdf" "material" 4]

/-! # Theorems -/

/-- **C1.** For every deferred decision group, resolution is a total
function of the full candidate's probed page count: a known page count
≤ 20 yields `chosen_role = "full"`, a known page count > 20 yields
`chosen_role = "summary"`, an unknown page count (url absent from the
probe map, or mapped to null) yields `chosen_role = "summary"`, and in
every case the group's status becomes `"resolved"`. -/
theorem C1_resolve_deferred_total (probe : List (String × Option Int)) (d : DeferredGroup) :
    (resolve_deferred_one probe d).status = "resolved" ∧
    (∀ n : Int, probePageCount probe d.full_candidate.url = some n →
      (n ≤ 20 → (resolve_deferred_one probe d).chosen_role = "full") ∧
      (20 < n → (resolve_deferred_one probe d).chosen_role = "summary")) ∧
    (probePageCount probe d.full_candidate.url = none →
      (resolve_deferred_one probe d).chosen_role = "summary") := by
  refine ⟨rfl, ?_, ?_⟩
  · intro n hn
    constructor
    · intro hle
      simp [resolve_deferred_one, hn, hle]
    · intro hgt
      have hnle : ¬ n ≤ 20 := by omega
      simp [resolve_deferred_one, hn, hnle]
  · intro hnone
    simp [resolve_deferred_one, hnone]

/-- Witness for C1 at a concrete group and concrete probe maps
(page counts 15, 25 and null). -/
theorem C1_resolve_deferred_total_witness :
    (resolve_deferred_one [("https://x/f.pdf", some 15)] c1group).chosen_role = "full" ∧
    (resolve_deferred_one [("https://x/f.pdf", some 25)] c1group).chosen_role = "summary" ∧
    (resolve_deferred_one [("https://x/f.pdf", none)] c1group).chosen_role = "summary" ∧
    (resolve_deferred_one [] c1group).status = "resolved" :=
  ⟨((C1_resolve_deferred_total [("https://x/f.pdf", some 15)] c1group).2.1 15 (by decide)).1
      (by decide),
   ((C1_resolve_deferred_total [("https://x/f.pdf", some 25)] c1group).2.1 25 (by decide)).2
      (by decide),
   (C1_resolve_deferred_total [("https://x/f.pdf", none)] c1group).2.2 (by decide),
   (C1_resolve_deferred_total [] c1group).1⟩

/-- Every item emitted by the final-selection loop has a url outside the
rejected set. -/
theorem build_final_selection_aux_url_not_reject
    {reject keep seen : List String} {l : List Cand} {y : Cand}
    (hy : y ∈ build_final_selection_aux reject keep seen l) : y.url ∉ reject := by
  induction l generalizing seen with
  | nil => simp [build_final_selection_aux] at hy
  | cons x rest ih =>
    by_cases h1 : x.url = "" ∨ x.url ∈ seen
    · rw [build_final_selection_aux, if_pos h1] at hy
      exact ih hy
    · by_cases h2 : x.url ∈ reject
      · rw [build_final_selection_aux, if_neg h1, if_pos h2] at hy
        exact ih hy
      · rw [build_final_selection_aux, if_neg h1, if_neg h2] at hy
        rcases List.mem_cons.mp hy with h | h
        · have hurl : y.url = x.url := by
            subst h
            by_cases hk : x.url ∈ keep <;> simp [hk]
          rw [hurl]
          exact h2
        · exact ih h

/-- A non-empty, non-rejected, not-yet-seen url occurring among the input
items survives the final-selection loop. -/
theorem build_final_selection_aux_keeps
    {reject keep seen : List String} {l : List Cand} {u : String}
    (hne : u ≠ "") (hseen : u ∉ seen) (hrej : u ∉ reject)
    (hmem : u ∈ l.map (fun c => c.url)) :
    u ∈ (build_final_selection_aux reject keep seen l).map (fun c => c.url) := by
  induction l generalizing seen with
  | nil => simp at hmem
  | cons x rest ih =>
    rcases List.mem_map.mp hmem with ⟨c, hc, hcu⟩
    rcases List.mem_cons.mp hc with hcx | hcrest
    · have hxu : x.url = u := by rw [hcx] at hcu; exact hcu
      have h1 : ¬ (x.url = "" ∨ x.url ∈ seen) := by
        rw [hxu]; push_neg; exact ⟨hne, hseen⟩
      have h2 : x.url ∉ reject := by rw [hxu]; exact hrej
      rw [build_final_selection_aux, if_neg h1, if_neg h2]
      have hhead : ((if x.url ∈ keep then
          { x with decision_pending := false, decision_resolved := true }
          else x) : Cand).url = u := by
        split <;> simp [hxu]
      exact List.mem_map.mpr ⟨_, List.mem_cons_self _ _, hhead⟩
    · have hurest : u ∈ rest.map (fun c => c.url) := List.mem_map.mpr ⟨c, hcrest, hcu⟩
      by_cases h1 : x.url = "" ∨ x.url ∈ seen
      · rw [build_final_selection_aux, if_pos h1]
        exact ih hseen hurest
      · by_cases h2 : x.url ∈ reject
        · rw [build_final_selection_aux, if_neg h1, if_pos h2]
          exact ih hseen hurest
        · rw [build_final_selection_aux, if_neg h1, if_neg h2]
          by_cases hxu : x.url = u
          · have hhead : ((if x.url ∈ keep then
                { x with decision_pending := false, decision_resolved := true }
                else x) : Cand).url = u := by
              split <;> simp [hxu]
            exact List.mem_map.mpr ⟨_, List.mem_cons_self _ _, hhead⟩
          · have hseen2 : u ∉ x.url :: seen := by
              intro hmem2
              rcases List.mem_cons.mp hmem2 with h | h
              · exact hxu h.symm
              · exact hseen h
            rw [List.map_cons]
            exact List.mem_cons_of_mem _ (ih hseen2 hurest)

/-- The chosen/rejected urls of a resolved group are exactly the two urls
of the pending group, in one of the two orders. -/
theorem resolve_deferred_one_urls (probe : List (String × Option Int)) (d : DeferredGroup) :
    ((resolve_deferred_one probe d).chosen_url = d.full_candidate.url ∧
     (resolve_deferred_one probe d).rejected_url = d.summary_candidate.url) ∨
    ((resolve_deferred_one probe d).chosen_url = d.summary_candidate.url ∧
     (resolve_deferred_one probe d).rejected_url = d.full_candidate.url) := by
  unfold resolve_deferred_one
  cases hp : probePageCount probe d.full_candidate.url with
  | some n =>
    by_cases hle : n ≤ 20 <;> simp [hle]
  | none => simp

/-- **C3.** For every resolved deferred group, the group's `chosen_url`
always appears in the final selected list produced by the final selection
merge and its `rejected_url` is always dropped from it; the chosen and
rejected urls are exactly the group's two urls
(`summary_candidate.url`, `full_candidate.url`) in one of the two orders,
so exactly one of those two urls appears — all provided both members were
force-included into the pre-resolution selection.  The side conditions
(non-empty urls, distinct urls inside a group, url-disjoint groups) are
the invariants `_build_deferred_decisions` guarantees for its output. -/
theorem C3_final_selection_mutual_exclusivity
    (deferred : List DeferredGroup) (probe : List (String × Option Int))
    (selected : List Cand) (g : DeferredGroup) (hg : g ∈ deferred)
    (hsu : g.summary_candidate.url ≠ "") (hfu : g.full_candidate.url ≠ "")
    (hneq : g.summary_candidate.url ≠ g.full_candidate.url)
    (hdisj : ∀ g2 ∈ deferred, g2 ≠ g →
      g2.summary_candidate.url ≠ g.summary_candidate.url ∧
      g2.summary_candidate.url ≠ g.full_candidate.url ∧
      g2.full_candidate.url ≠ g.summary_candidate.url ∧
      g2.full_candidate.url ≠ g.full_candidate.url)
    (hsmem : g.summary_candidate.url ∈ selected.map (fun c => c.url))
    (hfmem : g.full_candidate.url ∈ selected.map (fun c => c.url)) :
    (resolve_deferred_one probe g).chosen_url ∈
      final_selected_urls selected (resolve_deferred deferred probe) ∧
    (resolve_deferred_one probe g).rejected_url ∉
      final_selected_urls selected (resolve_deferred deferred probe) ∧
    (((resolve_deferred_one probe g).chosen_url = g.full_candidate.url ∧
      (resolve_deferred_one probe g).rejected_url = g.summary_candidate.url) ∨
     ((resolve_deferred_one probe g).chosen_url = g.summary_candidate.url ∧
      (resolve_deferred_one probe g).rejected_url = g.full_candidate.url)) ∧
    ((g.summary_candidate.url ∈ final_selected_urls selected (resolve_deferred deferred probe) ∧
      g.full_candidate.url ∉ final_selected_urls selected (resolve_deferred deferred probe)) ∨
     (g.full_candidate.url ∈ final_selected_urls selected (resolve_deferred deferred probe) ∧
      g.summary_candidate.url ∉
        final_selected_urls selected (resolve_deferred deferred probe))) := by
  set resolved := resolve_deferred deferred probe with hresolved
  -- a url is rejected iff some group resolved against it
  have hreject_iff : ∀ u : String, u ∈ rejectUrls resolved ↔
      (∃ g2 ∈ deferred, (resolve_deferred_one probe g2).rejected_url = u) ∧ u ≠ "" := by
    intro u
    simp only [rejectUrls, hresolved, resolve_deferred, List.mem_filter, List.map_map,
      List.mem_map, Function.comp, ne_eq, decide_not, Bool.not_eq_eq_eq_not, Bool.not_true,
      decide_eq_false_iff_not]
  -- nothing in the output is rejected
  have hout_not_reject : ∀ u : String,
      u ∈ final_selected_urls selected resolved → u ∉ rejectUrls resolved := by
    intro u hu
    rcases List.mem_map.mp hu with ⟨y, hy, hyu⟩
    rw [← hyu]
    exact build_final_selection_aux_url_not_reject hy
  -- the url of g that the resolver chose is not rejected by any group
  have hchosen_not_reject : (resolve_deferred_one probe g).chosen_url ∉ rejectUrls resolved := by
    intro hmem
    rcases (hreject_iff _).mp hmem with ⟨⟨g2, hg2, hu⟩, _⟩
    by_cases hgg : g2 = g
    · subst hgg
      rcases resolve_deferred_one_urls probe g2 with ⟨hc, hr⟩ | ⟨hc, hr⟩
      · exact hneq (by rw [← hr, hu, hc])
      · exact hneq (by rw [← hc, ← hu, hr])
    · rcases hdisj g2 hg2 hgg with ⟨d1, d2, d3, d4⟩
      rcases resolve_deferred_one_urls probe g with ⟨hc, _⟩ | ⟨hc, _⟩ <;>
        rcases resolve_deferred_one_urls probe g2 with ⟨_, hr2⟩ | ⟨_, hr2⟩
      · exact d2 (by rw [← hr2, hu, hc])
      · exact d4 (by rw [← hr2, hu, hc])
      · exact d1 (by rw [← hr2, hu, hc])
      · exact d3 (by rw [← hr2, hu, hc])
  -- the rejected url of g is in the reject set
  have hrej_mem : (resolve_deferred_one probe g).rejected_url ∈ rejectUrls resolved := by
    apply (hreject_iff _).mpr
    refine ⟨⟨g, hg, rfl⟩, ?_⟩
    rcases resolve_deferred_one_urls probe g with ⟨_, hr⟩ | ⟨_, hr⟩
    · rw [hr]; exact hsu
    · rw [hr]; exact hfu
  -- the chosen url survives the merge
  have hpresent : (resolve_deferred_one probe g).chosen_url ∈
      final_selected_urls selected resolved := by
    rcases resolve_deferred_one_urls probe g with ⟨hc, _⟩ | ⟨hc, _⟩
    · rw [hc]
      show g.full_candidate.url ∈ (build_final_selection_aux (rejectUrls resolved)
        (keepUrls resolved) [] selected).map (fun c => c.url)
      exact build_final_selection_aux_keeps hfu (by simp) (hc ▸ hchosen_not_reject) hfmem
    · rw [hc]
      show g.summary_candidate.url ∈ (build_final_selection_aux (rejectUrls resolved)
        (keepUrls resolved) [] selected).map (fun c => c.url)
      exact build_final_selection_aux_keeps hsu (by simp) (hc ▸ hchosen_not_reject) hsmem
  -- the rejected url is dropped by the merge
  have hdropped : (resolve_deferred_one probe g).rejected_url ∉
      final_selected_urls selected resolved := by
    intro hmem2
    exact hout_not_reject _ hmem2 hrej_mem
  refine ⟨hpresent, hdropped, resolve_deferred_one_urls probe g, ?_⟩
  rcases resolve_deferred_one_urls probe g with ⟨hc, hr⟩ | ⟨hc, hr⟩
  · right
    exact ⟨hc ▸ hpresent, hr ▸ hdropped⟩
  · left
    exact ⟨hc ▸ hpresent, hr ▸ hdropped⟩

/-- Witness for C3: the concrete group `c1group` with a probed page count
of 10 resolves to the full document; the resolved record's chosen url
survives the final selection merge, its rejected url is dropped, and
exactly the full url of the group appears. -/
theorem C3_final_selection_mutual_exclusivity_witness :
    (resolve_deferred_one [("https://x/f.pdf", some 10)] c1group).chosen_url ∈
      final_selected_urls c3selected
        (resolve_deferred [c1group] [("https://x/f.pdf", some 10)]) ∧
    (resolve_deferred_one [("https://x/f.pdf", some 10)] c1group).rejected_url ∉
      final_selected_urls c3selected
        (resolve_deferred [c1group] [("https://x/f.pdf", some 10)]) ∧
    (("https://x/s.pdf" ∈ final_selected_urls c3selected
        (resolve_deferred [c1group] [("https://x/f.pdf", some 10)]) ∧
      "https://x/f.pdf" ∉ final_selected_urls c3selected
        (resolve_deferred [c1group] [("https://x/f.pdf", some 10)])) ∨
     ("https://x/f.pdf" ∈ final_selected_urls c3selected
        (resolve_deferred [c1group] [("https://x/f.pdf", some 10)]) ∧
      "https://x/s.pdf" ∉ final_selected_urls c3selected
        (resolve_deferred [c1group] [("https://x/f.pdf", some 10)]))) :=
  ⟨(C3_final_selection_mutual_exclusivity [c1group] [("https://x/f.pdf", some 10)]
      c3selected c1group (by decide) (by decide) (by decide) (by decide)
      (by decide) (by decide) (by decide)).1,
   (C3_final_selection_mutual_exclusivity [c1group] [("https://x/f.pdf", some 10)]
      c3selected c1group (by decide) (by decide) (by decide) (by decide)
      (by decide) (by decide) (by decide)).2.1,
   (C3_final_selection_mutual_exclusivity [c1group] [("https://x/f.pdf", some 10)]
      c3selected c1group (by decide) (by decide) (by decide) (by decide)
      (by decide) (by decide) (by decide)).2.2.2⟩

/-- The force-include walk only ever appends, and appends only candidates
with forced urls. -/
theorem force_include_eq_append (forced : List String) (all : List Cand) :
    ∀ acc : List Cand, ∃ ext : List Cand,
      force_include forced all acc = acc ++ ext ∧ ∀ y ∈ ext, y.url ∈ forced := by
  induction all with
  | nil => intro acc; exact ⟨[], by simp [force_include], by simp⟩
  | cons x rest ih =>
    intro acc
    by_cases hx : x.url ∈ forced ∧ x ∉ acc
    · rcases ih (acc ++ [x]) with ⟨ext, hext, hall⟩
      refine ⟨x :: ext, ?_, ?_⟩
      · rw [force_include, List.foldl_cons, if_pos hx] at *
        rw [hext]
        simp
      · intro y hy
        rcases List.mem_cons.mp hy with h | h
        · rw [h]; exact hx.1
        · exact hall y h
    · rcases ih acc with ⟨ext, hext, hall⟩
      refine ⟨ext, ?_, hall⟩
      rw [force_include, List.foldl_cons, if_neg hx] at *
      exact hext

/-- A candidate of the input whose url is forced contributes its url to
the force-included selection. -/
theorem force_include_mem (forced : List String) (all : List Cand) :
    ∀ (acc : List Cand) (x : Cand), x ∈ all → x.url ∈ forced →
      ∃ y ∈ force_include forced all acc, y.url = x.url := by
  induction all with
  | nil => intro _ x hx; exact absurd hx (List.not_mem_nil x)
  | cons h rest ih =>
    intro acc x hx hforced
    rcases List.mem_cons.mp hx with hxh | hxrest
    · subst hxh
      by_cases hcond : x.url ∈ forced ∧ x ∉ acc
      · rw [force_include, List.foldl_cons, if_pos hcond]
        rcases force_include_eq_append forced rest (acc ++ [x]) with ⟨ext, hext, _⟩
        refine ⟨x, ?_, rfl⟩
        rw [show List.foldl (fun acc x => if x.url ∈ forced ∧ x ∉ acc then acc ++ [x] else acc)
          (acc ++ [x]) rest = force_include forced rest (acc ++ [x]) from rfl, hext]
        simp
      · have hmem : x ∈ acc := by
          by_contra hnot
          exact hcond ⟨hforced, hnot⟩
        rw [force_include, List.foldl_cons, if_neg hcond]
        rcases force_include_eq_append forced rest acc with ⟨ext, hext, _⟩
        refine ⟨x, ?_, rfl⟩
        rw [show List.foldl (fun acc x => if x.url ∈ forced ∧ x ∉ acc then acc ++ [x] else acc)
          acc rest = force_include forced rest acc from rfl, hext]
        exact List.mem_append_left _ hmem
    · rw [force_include, List.foldl_cons]
      by_cases hcond : h.url ∈ forced ∧ h ∉ acc
      · rw [if_pos hcond]
        exact ih (acc ++ [h]) x hxrest hforced
      · rw [if_neg hcond]
        exact ih acc x hxrest hforced

/-- url-deduplication only removes items. -/
theorem dedupe_selected_sublist (seen : List String) (l : List Cand) :
    (dedupe_selected seen l).Sublist l := by
  induction l generalizing seen with
  | nil => simp [dedupe_selected]
  | cons x rest ih =>
    rw [dedupe_selected]
    split
    · exact (ih seen).trans (List.sublist_cons_self x rest)
    · exact (ih (x.url :: seen)).cons₂ x

/-- A non-empty, unseen url occurring in the input survives
url-deduplication. -/
theorem dedupe_selected_keeps {seen : List String} {l : List Cand} {u : String}
    (hne : u ≠ "") (hseen : u ∉ seen) (hmem : u ∈ l.map (fun c => c.url)) :
    u ∈ (dedupe_selected seen l).map (fun c => c.url) := by
  induction l generalizing seen with
  | nil => simp at hmem
  | cons x rest ih =>
    by_cases hxu : x.url = u
    · have h1 : ¬ (x.url = "" ∨ x.url ∈ seen) := by
        rw [hxu]; push_neg; exact ⟨hne, hseen⟩
      rw [dedupe_selected, if_neg h1, List.map_cons]
      exact List.mem_cons.mpr (Or.inl hxu.symm)
    · have hurest : u ∈ rest.map (fun c => c.url) := by
        rcases List.mem_map.mp hmem with ⟨c, hc, hcu⟩
        rcases List.mem_cons.mp hc with hcx | hcrest
        · exact absurd (hcx ▸ hcu) hxu
        · exact List.mem_map.mpr ⟨c, hcrest, hcu⟩
      rw [dedupe_selected]
      split
      · exact ih hseen hurest
      · rw [List.map_cons]
        refine List.mem_cons_of_mem _ (ih ?_ hurest)
        intro hmem2
        rcases List.mem_cons.mp hmem2 with h | h
        · exact hxu h.symm
        · exact hseen h

/-- The capped score-based portion never exceeds five candidates. -/
theorem score_selected_capped_length_le (sorted_scored : List Cand) (forced : List String) :
    (score_selected_capped sorted_scored forced).length ≤ 5 := by
  rw [score_selected_capped]
  split
  · simp [List.length_take]
  · omega

/-- **C2.** For every input candidate set: (1) the selected list contains
at most five candidates whose url is not forced; (2) the score-based
portion is computed from exactly the candidates with `priority_score ≥ 4`
and a non-forced url, sorted by (score desc, category, filename) — every
such candidate is considered for it — and capped at five; (3) every
candidate url forced by a pending deferred group appears in the selected
list regardless of its score. -/
theorem C2_selection_cap_and_forced (sorted_scored : List Cand) (forced : List String) :
    ((select_pdfs sorted_scored forced).filter (fun x => x.url ∉ forced)).length ≤ 5 ∧
    score_selected_sorted sorted_scored forced =
      sortDescBy (sorted_scored.filter
        (fun x => 4 ≤ x.priority_score ∧ x.url ∉ forced)) ∧
    (∀ u ∈ forced, u ≠ "" → u ∈ sorted_scored.map (fun c => c.url) →
      u ∈ (select_pdfs sorted_scored forced).map (fun c => c.url)) := by
  have hpool : (selected_before_cap sorted_scored forced).filter (fun x => x.url ∉ forced) =
      sorted_scored.filter (fun x => 4 ≤ x.priority_score ∧ x.url ∉ forced) := by
    rcases force_include_eq_append forced sorted_scored
      (sorted_scored.filter (fun x => 4 ≤ x.priority_score)) with ⟨ext, hext, hall⟩
    rw [selected_before_cap, hext, List.filter_append]
    have hextnil : ext.filter (fun x => x.url ∉ forced) = [] := by
      rw [List.filter_eq_nil_iff]
      intro a ha
      simp only [decide_not, Bool.not_eq_true', decide_eq_false_iff_not, not_not]
      exact hall a ha
    rw [hextnil, List.append_nil, List.filter_filter]
    apply List.filter_congr
    intro a _
    by_cases h1 : 4 ≤ a.priority_score <;> by_cases h2 : a.url ∈ forced <;> simp [h1, h2]
  refine ⟨?_, ?_, ?_⟩
  · -- cap on the non-forced part of the output
    unfold select_pdfs
    have hsub := (dedupe_selected_sublist []
      (forced_selected sorted_scored forced ++
        score_selected_capped sorted_scored forced)).filter
      (fun x => decide (x.url ∉ forced))
    have hlen := hsub.length_le
    rw [List.filter_append] at hlen
    have hforcednil : (forced_selected sorted_scored forced).filter
        (fun x => x.url ∉ forced) = [] := by
      rw [forced_selected, List.filter_filter, List.filter_eq_nil_iff]
      intro a _
      by_cases h : a.url ∈ forced <;> simp [h]
    rw [hforcednil, List.nil_append] at hlen
    exact le_trans hlen (le_trans (List.filter_sublist _).length_le
      (score_selected_capped_length_le sorted_scored forced))
  · -- the score pool is exactly the >=4, non-forced candidates
    unfold score_selected_sorted
    rw [hpool]
  · -- forced urls always survive
    intro u hu hne hmem
    rcases List.mem_map.mp hmem with ⟨c, hc, hcu⟩
    rcases force_include_mem forced sorted_scored
      (sorted_scored.filter (fun x => 4 ≤ x.priority_score)) c hc (hcu ▸ hu) with ⟨y, hy, hyu⟩
    have hyforced : y ∈ forced_selected sorted_scored forced := by
      rw [forced_selected, List.mem_filter]
      exact ⟨hy, by simp [hyu, hcu ▸ hu]⟩
    apply dedupe_selected_keeps hne (by simp)
    exact List.mem_map.mpr ⟨y, List.mem_append_left _ hyforced, by rw [hyu, hcu]⟩

/-- Witness for C2: with both urls of `c3selected` forced, the summary
url appears in the selection. -/
theorem C2_selection_cap_and_forced_witness :
    "https://x/s.pdf" ∈ (select_pdfs c3selected
      ["https://x/s.pdf", "https://x/f.pdf"]).map (fun c => c.url) :=
  (C2_selection_cap_and_forced c3selected ["https://x/s.pdf", "https://x/f.pdf"]).2.2
    "https://x/s.pdf" (by decide) (by decide) (by decide)

/-- The final re-clamp guarantees a score of at least 1. -/
theorem clamp_floor_ge_one (x : Cand) : 1 ≤ (clamp_floor x).priority_score := by
  rw [clamp_floor]
  split
  · simp
  · omega

/-- **C4.** Every candidate's priority score is at least 1: the
individual scoring step clamps `base + filename_bonus + mention_bonus +
category_penalty` to a minimum of 1, and the set-wide adjustment pass
re-clamps every score it produces. -/
theorem C4_score_floor :
    (∀ (has_exec : Bool) (mentions : List (String × Int)) (use_llm : Bool)
      (llm : Option String) (it : LinkEntry),
      1 ≤ (score_item has_exec mentions use_llm llm it).priority_score) ∧
    (∀ (scored : List Cand), ∀ y ∈ apply_adjustment_rules scored,
      1 ≤ y.priority_score) := by
  constructor
  · intro has_exec mentions use_llm llm it
    exact le_max_left 1 _
  · intro scored y hy
    rw [apply_adjustment_rules] at hy
    rcases List.mem_map.mp hy with ⟨x, _, hxy⟩
    rw [← hxy]
    exact clamp_floor_ge_one _

/-- Witness for C4: a concrete excluded-category record scores at least 1
after the individual clamp, and the concrete output of the adjustment
pass on a negatively scored candidate keeps a score ≥ 1. -/
theorem C4_score_floor_witness :
    1 ≤ (score_item true [] false none
      { text := "委員名簿", url := "https://x/m.pdf", filename := "meibo.pdf",
        estimated_category := "participants" }).priority_score ∧
    1 ≤ ((apply_adjustment_rules
      [mkCand "個人提出資料" "https://x/p.pdf" "p.pdf" "personal_material" (-5)]).headD
        (mkCand "" "" "" "" 0)).priority_score :=
  ⟨C4_score_floor.1 true [] false none
    { text := "委員名簿", url := "https://x/m.pdf", filename := "meibo.pdf",
      estimated_category := "participants" },
   C4_score_floor.2
    [mkCand "個人提出資料" "https://x/p.pdf" "p.pdf" "personal_material" (-5)] _
    (by decide)⟩

/-- **C6.** The category penalty is −10 on the excluded categories, −1
for `reference` and −2 for `personal_material` exactly when an
executive summary exists in the set, and 0 otherwise. -/
theorem C6_category_penalty (category : String) (has_exec : Bool) :
    (category ∈ EXCLUDE_CATEGORIES → category_penalty category has_exec = -10) ∧
    (category = "reference" →
      category_penalty category has_exec = if has_exec then -1 else 0) ∧
    (category = "personal_material" →
      category_penalty category has_exec = if has_exec then -2 else 0) ∧
    (category ∉ EXCLUDE_CATEGORIES → category ≠ "reference" →
      category ≠ "personal_material" → category_penalty category has_exec = 0) := by
  refine ⟨?_, ?_, ?_, ?_⟩
  · intro h
    rw [category_penalty, if_pos h]
  · intro h
    subst h
    cases has_exec <;> decide
  · intro h
    subst h
    cases has_exec <;> decide
  · intro h1 h2 h3
    rw [category_penalty, if_neg h1,
      if_neg (fun hc => h2 hc.1), if_neg (fun hc => h3 hc.1)]

/-- Witness for C6 at the concrete categories of the claim. -/
theorem C6_category_penalty_witness :
    category_penalty "participants" false = -10 ∧
    category_penalty "reference" true = -1 ∧
    category_penalty "personal_material" true = -2 ∧
    category_penalty "material" true = 0 :=
  ⟨(C6_category_penalty "participants" false).1 (by decide),
   by rw [(C6_category_penalty "reference" true).2.1 rfl]; decide,
   by rw [(C6_category_penalty "personal_material" true).2.2.1 rfl]; decide,
   (C6_category_penalty "material" true).2.2.2 (by decide) (by decide) (by decide)⟩

/-- **C8, counterexample.** The claim says the selection stage aborts on
malformed candidate-links JSON.  It does not: `_parse_links_json`
swallows the `JSONDecodeError` and returns the empty list, and `main`
falls back to the `pdf-links.txt` source and keeps running (here with an
empty candidate set). -/
theorem C8_counterexample :
    parse_links_json "\x7bnot json"
      (.error "Expecting value: line 1 column 1 (char 0)") = [] ∧
    step5_acquire "\x7bnot json"
      (.error "Expecting value: line 1 column 1 (char 0)") "" =
      ([], "pdf-links.txt") := by
  decide

/-- **C8, amended.** Malformed upstream JSON aborts the document
pipeline stage: step6 turns an empty/missing step5 file and an
undecodable step5 file into a fatal `SystemExit` diagnostic.  The
selection stage, however, does not abort on malformed candidate-links
JSON: `_parse_links_json` returns the empty list and `main` silently
falls back to the `pdf-links.txt` source. -/
theorem C8_malformed_input (step5_path e txt raw : String)
    (parsed : Except String Json) :
    step6_load_step5 step5_path "" parsed =
      .error ("step5 file not found or empty: " ++ step5_path) ∧
    (raw ≠ "" → step6_load_step5 step5_path raw (.error e) =
      .error ("invalid step5 json: " ++ e)) ∧
    parse_links_json raw (.error e) = [] ∧
    step5_acquire raw (.error e) txt = (parse_links_txt txt, "pdf-links.txt") := by
  have hjson : parse_links_json raw (.error e) = [] := by
    by_cases h : raw = "" <;> simp [parse_links_json, h]
  refine ⟨?_, ?_, hjson, ?_⟩
  · rw [step6_load_step5.eq_def, if_pos rfl]
  · intro h
    rw [step6_load_step5.eq_def, if_neg h]
  · rw [step5_acquire, hjson]
    simp

/-- Witness for C8-amended at concrete malformed inputs. -/
theorem C8_malformed_input_witness :
    step6_load_step5 "tmp/runs/r1/step5-material-selection.json" "\x7bbad"
      (.error "Expecting value") =
      .error ("invalid step5 json: " ++ "Expecting value") :=
  (C8_malformed_input "tmp/runs/r1/step5-material-selection.json" "Expecting value"
    "" "\x7bbad" (.ok Json.null)).2.1 (by decide)

/-- The keyword classifier only ever answers inside the closed category
set. -/
theorem classify_document_mem (title filename : String) :
    classify_document title filename ∈ categorySet := by
  rw [classify_document]
  split_ifs <;> decide

/-- **C10, counterexample.** The claim says every scored candidate's
category lies in the closed set for every upstream input.  It does not: a
record whose `estimated_category` is an arbitrary non-`other` string
(accepted verbatim by `_parse_links_json`) is taken as-is by the scoring
loop, so `document_category` becomes that arbitrary string. -/
theorem C10_counterexample :
    parse_links_json
      "[\x7b\"url\": \"https://x/banana.pdf\", \"text\": \"banana doc\", \"estimated_category\": \"banana\"\x7d]"
      (.ok (Json.arr [Json.obj
        [("url", Json.str "https://x/banana.pdf"), ("text", Json.str "banana doc"),
         ("estimated_category", Json.str "banana")]])) =
      [{ text := "banana doc", url := "https://x/banana.pdf", filename := "banana.pdf",
         estimated_category := "banana" }] ∧
    (score_item false [] false none
      { text := "banana doc", url := "https://x/banana.pdf", filename := "banana.pdf",
        estimated_category := "banana" }).document_category = "banana" ∧
    "banana" ∉ categorySet := by
  decide

/-- **C10, amended.** A scored candidate's category lies in the closed
category set whenever its upstream `estimated_category` is blank,
`other`, or itself a member of the closed set (the keyword classifier and
the gated LLM fallback only produce members); an arbitrary non-`other`
upstream string, however, is passed through unvalidated. -/
theorem C10_amended (it : LinkEntry) (has_exec : Bool) (mentions : List (String × Int))
    (use_llm : Bool) (llm : Option String)
    (h : pyStrip it.estimated_category = "" ∨ pyStrip it.estimated_category = "other" ∨
      pyStrip it.estimated_category ∈ categorySet) :
    (score_item has_exec mentions use_llm llm it).document_category ∈ categorySet := by
  have hc : (score_item has_exec mentions use_llm llm it).document_category =
      choose_category it use_llm llm := rfl
  rw [hc, choose_category.eq_def]
  by_cases he : pyStrip it.estimated_category ≠ "" ∧ pyStrip it.estimated_category ≠ "other"
  · rw [if_pos he]
    rcases h with h | h | h
    · exact absurd h he.1
    · exact absurd h he.2
    · exact h
  · rw [if_neg he]
    by_cases hl : use_llm ∧ classify_document it.text it.filename = "other"
    · rw [if_pos hl]
      cases llm with
      | none => exact classify_document_mem it.text it.filename
      | some cat =>
        show (if cat ∈ categorySet then cat
          else classify_document it.text it.filename) ∈ categorySet
        by_cases hcat : cat ∈ categorySet
        · rw [if_pos hcat]; exact hcat
        · rw [if_neg hcat]; exact classify_document_mem it.text it.filename
    · rw [if_neg hl]
      exact classify_document_mem it.text it.filename

/-- Witness for C10-amended: a record tagged `other` upstream is
classified by the keyword rules into the closed set. -/
theorem C10_amended_witness :
    (score_item false [] true none
      { text := "第3回議事次第", url := "https://x/agenda.pdf",
        filename := "agenda.pdf", estimated_category := "other" }).document_category ∈
      categorySet :=
  C10_amended
    { text := "第3回議事次第", url := "https://x/agenda.pdf",
      filename := "agenda.pdf", estimated_category := "other" }
    false [] true none (by decide)

/-- **C5, counterexample.** The claim asserts the common topic key lets a
summary/full pair form on the texts "資料1 政策概要について" and
"資料1-2 政策概要（本文）".  The keys do agree, but the second text also
contains the summary hint "概要", so `_build_deferred_decisions` puts it
among the summary candidates — it can never be the full side of a pair,
and no deferred group forms on these two texts. -/
theorem C5_topic_key_counterexample :
    topic_key "資料1 政策概要について" = topic_key "資料1-2 政策概要（本文）" ∧
    is_summary_text "資料1-2 政策概要（本文）" = true ∧
    (build_deferred_decisions
      [mkCand "資料1 政策概要について" "https://x/s.pdf" "s.pdf" "executive_summary" 5,
       mkCand "資料1-2 政策概要（本文）" "https://x/f.pdf" "f.pdf" "material" 4]).1 =
      [] := by
  decide

/-- **C5, amended.** The topic-key normalization maps
"資料1 政策概要について" and "資料1-2 政策概要（本文）" to the same key
"政策" (a necessary condition for pairing, though this particular second
text is itself a summary candidate and so cannot pair as the full side),
and maps "資料2 別施策の概要" to the different key "別施策", so it cannot
pair with the other two. -/
theorem C5_topic_key_amended :
    topic_key "資料1 政策概要について" = "政策" ∧
    topic_key "資料1-2 政策概要（本文）" = "政策" ∧
    topic_key "資料2 別施策の概要" = "別施策" ∧
    "別施策" ≠ "政策" := by
  decide

/-- **C7.** Merging duplicate link records sharing a url: the stored
(first) non-empty display text is kept and an empty stored text is
replaced by a non-empty duplicate text; in the step4 minutes-link merge,
a new non-empty text is preferred over a stored non-empty one exactly
via the two rules "old has the corruption marker and new does not" and
"new contains a 議事録-family keyword and old does not"; category hints
merge by preferring the first value outside {"", "other"}. -/
theorem C7_duplicate_merge :
    (∀ old it : LinkEntry, old.text ≠ "" → (merge_dup old it).text = old.text) ∧
    (∀ old it : LinkEntry, old.text = "" → it.text ≠ "" →
      (merge_dup old it).text = it.text) ∧
    (∀ old it : LinkEntry, old.estimated_category ≠ "" →
      old.estimated_category ≠ "other" →
      (merge_dup old it).estimated_category = old.estimated_category) ∧
    (∀ old it : LinkEntry,
      (old.estimated_category = "" ∨ old.estimated_category = "other") →
      it.estimated_category ≠ "" →
      (merge_dup old it).estimated_category = it.estimated_category) ∧
    (∀ e1 e2 : LinkEntry, e1.url ≠ "" → e2.url = e1.url →
      dedupe_by_url [e1, e2] = [merge_dup e1 e2]) ∧
    (∀ o n : String,
      (n = "" → prefer_new_text o n = false) ∧
      (n ≠ "" → o = "" → prefer_new_text o n = true) ∧
      (n ≠ "" → o ≠ "" → containsS o "�" = true → containsS n "�" = false →
        prefer_new_text o n = true) ∧
      (n ≠ "" → o ≠ "" → containsS o "�" = false →
        contains_minutes_keyword n = true → contains_minutes_keyword o = false →
        prefer_new_text o n = true)) := by
  refine ⟨?_, ?_, ?_, ?_, ?_, ?_⟩
  · intro old it h
    rw [merge_dup, merge_dup_text, if_neg (fun hc => h hc.1), merge_dup_category]
    split <;> rfl
  · intro old it h1 h2
    rw [merge_dup, merge_dup_text, if_pos ⟨h1, h2⟩, merge_dup_category]
    split <;> rfl
  · intro old it h1 h2
    have htext : (merge_dup_text old it).estimated_category = old.estimated_category := by
      rw [merge_dup_text]; split <;> rfl
    rw [merge_dup, merge_dup_category, htext,
      if_neg (fun hc => hc.1.elim (fun h => h1 h) (fun h => h2 h))]
    exact htext
  · intro old it h1 h2
    have htext : (merge_dup_text old it).estimated_category = old.estimated_category := by
      rw [merge_dup_text]; split <;> rfl
    rw [merge_dup, merge_dup_category, htext, if_pos ⟨h1, h2⟩]
  · intro e1 e2 h1 h2
    have h3 : e2.url ≠ "" := by rw [h2]; exact h1
    simp [dedupe_by_url, upsertMerge, h1, h3, h2.symm]
  · intro o n
    refine ⟨?_, ?_, ?_, ?_⟩
    · intro h
      rw [prefer_new_text, if_pos h]
    · intro h1 h2
      rw [prefer_new_text, if_neg h1, if_pos h2]
    · intro h1 h2 h3 h4
      rw [prefer_new_text, if_neg h1, if_neg h2]
      rw [if_pos (by rw [h3, h4]; rfl)]
    · intro h1 h2 h3 h4 h5
      rw [prefer_new_text, if_neg h1, if_neg h2, if_neg (by rw [h3]; simp),
        if_pos (by rw [h4, h5]; rfl)]

/-- Witness for C7 at concrete records and texts. -/
theorem C7_duplicate_merge_witness :
    (merge_dup
      { text := "資料3", url := "https://x/3.pdf", filename := "3.pdf",
        estimated_category := "other" }
      { text := "資料3（修正版）", url := "https://x/3.pdf", filename := "3.pdf",
        estimated_category := "material" }).text = "資料3" ∧
    (merge_dup
      { text := "資料3", url := "https://x/3.pdf", filename := "3.pdf",
        estimated_category := "other" }
      { text := "資料3（修正版）", url := "https://x/3.pdf", filename := "3.pdf",
        estimated_category := "material" }).estimated_category = "material" ∧
    dedupe_by_url
      [{ text := "", url := "https://x/3.pdf", filename := "3.pdf",
         estimated_category := "other" },
       { text := "資料3", url := "https://x/3.pdf", filename := "3.pdf",
         estimated_category := "material" }] =
      [merge_dup
        { text := "", url := "https://x/3.pdf", filename := "3.pdf",
          estimated_category := "other" }
        { text := "資料3", url := "https://x/3.pdf", filename := "3.pdf",
          estimated_category := "material" }] ∧
    prefer_new_text "議事次第" "議事録" = true ∧
    prefer_new_text "資料�概要" "資料3概要" = true :=
  ⟨C7_duplicate_merge.1
    { text := "資料3", url := "https://x/3.pdf", filename := "3.pdf",
      estimated_category := "other" }
    { text := "資料3（修正版）", url := "https://x/3.pdf", filename := "3.pdf",
      estimated_category := "material" } (by decide),
   (C7_duplicate_merge.2.2.2.1
    { text := "資料3", url := "https://x/3.pdf", filename := "3.pdf",
      estimated_category := "other" }
    { text := "資料3（修正版）", url := "https://x/3.pdf", filename := "3.pdf",
      estimated_category := "material" } (Or.inr (by decide)) (by decide)),
   C7_duplicate_merge.2.2.2.2.1
    { text := "", url := "https://x/3.pdf", filename := "3.pdf",
      estimated_category := "other" }
    { text := "資料3", url := "https://x/3.pdf", filename := "3.pdf",
      estimated_category := "material" } (by decide) (by decide),
   (C7_duplicate_merge.2.2.2.2.2 "議事次第" "議事録").2.2.2 (by decide) (by decide)
     (by decide) (by decide) (by decide),
   (C7_duplicate_merge.2.2.2.2.2 "資料�概要" "資料3概要").2.2.1 (by decide) (by decide)
     (by decide) (by decide)⟩

/-- **C9.** The layout classifier sends the claim's slide-like feature
vector (bullet_count 10, short_line_ratio 0.7, sentence_density 0.1,
page_number_line_count 3, rest 0) to `powerpoint_like` and its prose-like
vector (sentence_like_count 8, paragraph_count 5, particle_count 30,
polite_style_count 4, rest 0) to `word_like`; and whenever no explicit
title-keyword rule matches (here: empty title and sample), the decision
is exactly `word_like` iff `word_score ≥ ppt_score + 2`,
`powerpoint_like` iff `ppt_score ≥ word_score + 2`, else `mixed`. -/
theorem C9_layout_classifier :
    (classify_document_type "" "" c9ppt).1 = "powerpoint_like" ∧
    (classify_document_type "" "" c9word).1 = "word_like" ∧
    ∀ f : Features, (classify_document_type "" "" f).1 =
      (if word_score f ≥ ppt_score f + 2 then "word_like"
       else if ppt_score f ≥ word_score f + 2 then "powerpoint_like"
       else "mixed") := by
  refine ⟨by decide, by decide, ?_⟩
  intro f
  rw [classify_document_type, if_neg (by decide), if_neg (by decide),
    if_neg (by decide), if_neg (by decide)]
  by_cases h1 : word_score f ≥ ppt_score f + 2
  · rw [if_pos h1, if_pos h1]
  · rw [if_neg h1, if_neg h1]
    by_cases h2 : ppt_score f ≥ word_score f + 2
    · rw [if_pos h2, if_pos h2]
    · rw [if_neg h2, if_neg h2]

end PageReport
